import Mathlib

namespace RustUrl

/-- Outcome of running a piece of the embedded Rust code: `panic` models an
out-of-bounds index (a Rust task failure), `diverge` models exhaustion of the
fuel given to a loop that the source runs without any bound of its own, and
`ok` is a normal return value. -/
inductive RunResult (α : Type) where
  | panic : RunResult α
  | diverge : RunResult α
  | ok : α → RunResult α
deriving DecidableEq

/-- Byte-level indexing `input[i]` of a Rust string or slice: `none` when the
index is out of bounds (where the Rust code would fail at runtime). -/
def nthByte : List Nat → Nat → Option Nat
  | [], _ => none
  | b :: _, 0 => some b
  | _ :: l, n + 1 => nthByte l n

/-- Bytes of a pure-ASCII string literal, used to write concrete inputs. -/
def bytesOf (s : String) : List Nat := s.data.map Char.toNat

/-- `from_hex` from src/url.rs: hex digit value of an ASCII byte. -/
def from_hex (byte : Nat) : Option Nat :=
  if 0x30 ≤ byte ∧ byte ≤ 0x39 then some (byte - 0x30)
  else if 0x41 ≤ byte ∧ byte ≤ 0x46 then some (byte + 10 - 0x41)
  else if 0x61 ≤ byte ∧ byte ≤ 0x66 then some (byte + 10 - 0x61)
  else none

/-- `to_hex_upper` from src/url.rs. The source aborts on values above 15;
its callers only ever pass one nibble of a byte, so that arm is modelled as
an arbitrary junk value. -/
def to_hex_upper (value : Nat) : Nat :=
  if value ≤ 9 then value + 0x30
  else if value ≤ 15 then value - 10 + 0x41
  else 0

/-- The `EncodeSet` enum from src/url.rs. -/
inductive EncodeSet where
  | SimpleEncodeSet : EncodeSet
  | DefaultEncodeSet : EncodeSet
  | UserInfoEncodeSet : EncodeSet
  | PasswordEncodeSet : EncodeSet
  | UsernameEncodeSet : EncodeSet
deriving DecidableEq

/-- The escaping condition applied to each byte by `utf8_percent_encode` in
src/url.rs: outside printable ASCII, or one of the match arms whose listed
encode sets contain the active one. -/
def escape_byte (encode_set : EncodeSet) (byte : Nat) : Bool :=
  if byte < 0x20 ∨ 0x7E < byte then true
  else if byte = 0x20 ∨ byte = 0x22 ∨ byte = 0x23 ∨ byte = 0x3C ∨
          byte = 0x3E ∨ byte = 0x3F ∨ byte = 0x60 then
    match encode_set with
    | .SimpleEncodeSet => false
    | _ => true
  else if byte = 0x40 then
    match encode_set with
    | .UserInfoEncodeSet | .PasswordEncodeSet | .UsernameEncodeSet => true
    | _ => false
  else if byte = 0x2F ∨ byte = 0x5C then
    match encode_set with
    | .PasswordEncodeSet | .UsernameEncodeSet => true
    | _ => false
  else if byte = 0x3A then
    match encode_set with
    | .UsernameEncodeSet => true
    | _ => false
  else false

/-- `percent_encode_byte` from src/url.rs: `%XX` with uppercase hex. -/
def percent_encode_byte (byte : Nat) : List Nat :=
  [0x25, to_hex_upper (byte / 0x10), to_hex_upper (byte % 0x10)]

/-- `utf8_percent_encode` from src/url.rs, with the output buffer made the
return value: each byte is either escaped or copied verbatim. -/
def utf8_percent_encode : List Nat → EncodeSet → List Nat
  | [], _ => []
  | byte :: rest, encode_set =>
    (if escape_byte encode_set byte then percent_encode_byte byte else [byte]) ++
      utf8_percent_encode rest encode_set

/-- Worker for `percent_decode`, structurally recursive on a fuel that the
wrapper sets to the input length (an upper bound on the number of loop
iterations, since every iteration consumes at least one input byte). -/
def percent_decode_go : Nat → List Nat → List Nat
  | 0, _ => []
  | _, [] => []
  | fuel + 1, c :: rest =>
    if c = 0x25 then
      match rest with
      | h :: l :: rest2 =>
        match from_hex h, from_hex l with
        | some hv, some lv => (hv * 0x10 + lv) :: percent_decode_go fuel rest2
        | _, _ => c :: percent_decode_go fuel rest
      | _ => c :: percent_decode_go fuel rest
    else c :: percent_decode_go fuel rest

/-- `percent_decode` from src/url.rs: a `%` followed by two hex digits (the
source condition `i + 2 < input.len()` means both digits must exist) decodes
to one byte; anything else is copied as-is. -/
def percent_decode (input : List Nat) : List Nat :=
  percent_decode_go input.length input

/-- The `IPv6Address` struct from src/url.rs: 8 groups of 16 bits (here a
list of 8 naturals below 0x10000, built only by `parse`). -/
structure IPv6Address where
  pieces : List Nat
deriving DecidableEq

/-- The inner hex-digit loop of `IPv6Address::parse` (src/url.rs): starting
at index `i`, read hex digits while `i < endd`, accumulating into a `u16`
`value`; stops at the first non-hex byte. Returns the new `i` and `value`. -/
def ipv6_hex_loop (input : List Nat) (endd : Nat) : Nat → Nat → Nat → RunResult (Nat × Nat)
  | 0, _, _ => .diverge
  | fuel + 1, i, value =>
    if i < endd then
      match nthByte input i with
      | none => .panic
      | some byte =>
        match from_hex byte with
        | some digit => ipv6_hex_loop input endd fuel (i + 1) ((value * 0x10 + digit) % 0x10000)
        | none => .ok (i, value)
    else .ok (i, value)

/-- The main `while i < len` loop of `IPv6Address::parse` (src/url.rs).
State: fuel, `i`, `piece_pointer`, `compress_pointer`, `pieces`.
`ok none` models `return None`; `ok (some (is_ip_v4, i, piece_pointer,
compress_pointer, pieces))` models leaving the loop (by `break` into
embedded-IPv4 mode when `is_ip_v4` is true, or normally when false). -/
def ipv6_main_loop (input : List Nat) (len : Nat) :
    Nat → Nat → Nat → Option Nat → List Nat →
    RunResult (Option (Bool × Nat × Nat × Option Nat × List Nat))
  | 0, _, _, _, _ => .diverge
  | fuel + 1, i, piece_pointer, compress_pointer, pieces =>
    if i < len then
      if piece_pointer = 8 then .ok none
      else
        match nthByte input i with
        | none => .panic
        | some byte =>
          if byte = 0x3A then
            if compress_pointer.isSome then .ok none
            else ipv6_main_loop input len fuel (i + 1) (piece_pointer + 1)
                   (some (piece_pointer + 1)) pieces
          else
            let start := i
            let endd := min len (start + 4)
            match ipv6_hex_loop input endd fuel i 0 with
            | .panic => .panic
            | .diverge => .diverge
            | .ok (i2, value) =>
              if i2 < len then
                match nthByte input i2 with
                | none => .panic
                | some c =>
                  if c = 0x2E then
                    if i2 = start then .ok none
                    else .ok (some (true, start, piece_pointer, compress_pointer, pieces))
                  else if c = 0x3A then
                    if i2 + 1 = len then .ok none
                    else ipv6_main_loop input len fuel (i2 + 1) (piece_pointer + 1)
                           compress_pointer (pieces.set piece_pointer value)
                  else .ok none
              else
                ipv6_main_loop input len fuel i2 (piece_pointer + 1) compress_pointer
                  (pieces.set piece_pointer value)
    else .ok (some (false, i, piece_pointer, compress_pointer, pieces))

/-- The innermost decimal loop of the embedded-IPv4 mode of
`IPv6Address::parse` (src/url.rs): `while i < len` read a decimal digit at
`input[i]` into `value`, returning `None` for the whole parse once `value`
exceeds 255, and breaking at the first non-digit. Note that, exactly as in
the source, `i` is never advanced by this loop. `ok none` models
`return None`; `ok (some value)` models leaving the loop. -/
def ipv6_v4_value_loop (input : List Nat) (len i : Nat) : Nat → Nat → RunResult (Option Nat)
  | 0, _ => .diverge
  | fuel + 1, value =>
    if i < len then
      match nthByte input i with
      | none => .panic
      | some c =>
        if 0x30 ≤ c ∧ c ≤ 0x39 then
          let value2 := (value * 10 + (c - 0x30)) % 0x10000
          if value2 > 255 then .ok none
          else ipv6_v4_value_loop input len i fuel value2
        else .ok (some value)
    else .ok (some value)

/-- The outer `while i < len` loop of the embedded-IPv4 mode of
`IPv6Address::parse` (src/url.rs). State: fuel, `i`, `dots_seen`,
`piece_pointer`, `pieces`. `ok none` models `return None`;
`ok (some (piece_pointer, pieces))` models loop exit. -/
def ipv6_v4_loop (input : List Nat) (len : Nat) :
    Nat → Nat → Nat → Nat → List Nat → RunResult (Option (Nat × List Nat))
  | 0, _, _, _, _ => .diverge
  | fuel + 1, i, dots_seen, piece_pointer, pieces =>
    if i < len then
      match ipv6_v4_value_loop input len i fuel 0 with
      | .panic => .panic
      | .diverge => .diverge
      | .ok none => .ok none
      | .ok (some value) =>
        if dots_seen < 3 ∧ ¬(i < len ∧ nthByte input i = some 0x2E) then .ok none
        else
          let pieces2 := pieces.set piece_pointer
            ((((nthByte pieces piece_pointer).getD 0) * 0x100 + value) % 0x10000)
          let piece_pointer2 :=
            if dots_seen = 0 ∨ dots_seen = 2 then piece_pointer + 1 else piece_pointer
          let i2 := i + 1
          if dots_seen = 3 ∧ i2 < len then .ok none
          else ipv6_v4_loop input len fuel i2 (dots_seen + 1) piece_pointer2 pieces2
    else .ok (some (piece_pointer, pieces))

/-- The final compression-expansion loop of `IPv6Address::parse`
(src/url.rs): `while swaps > 0`, copy `pieces[compress_pointer + swaps - 1]`
into `pieces[piece_pointer]` and zero the source slot, walking
`piece_pointer` down from 7. -/
def ipv6_finalize_swaps : Nat → Nat → Nat → List Nat → List Nat
  | 0, _, _, pieces => pieces
  | swaps + 1, piece_pointer, compress_pointer, pieces =>
    let src := compress_pointer + (swaps + 1) - 1
    let pieces2 := pieces.set piece_pointer ((nthByte pieces src).getD 0)
    let pieces3 := pieces2.set src 0
    ipv6_finalize_swaps swaps (piece_pointer - 1) compress_pointer pieces3

/-- `IPv6Address::parse` from src/url.rs. The reads `input[0]` and
`input[1]` at the top are modelled exactly as in the source: they are
performed without a bounds check and produce `panic` when out of range. -/
def IPv6Address.parse (fuel : Nat) (input : List Nat) : RunResult (Option IPv6Address) :=
  let len := input.length
  let pieces0 : List Nat := [0, 0, 0, 0, 0, 0, 0, 0]
  match nthByte input 0 with
  | none => .panic
  | some b0 =>
    let start : RunResult (Option (Nat × Nat × Option Nat)) :=
      if b0 = 0x3A then
        match nthByte input 1 with
        | none => .panic
        | some b1 => if b1 ≠ 0x3A then .ok none else .ok (some (2, 1, some 1))
      else .ok (some (0, 0, none))
    match start with
    | .panic => .panic
    | .diverge => .diverge
    | .ok none => .ok none
    | .ok (some (i0, pp0, cp0)) =>
      match ipv6_main_loop input len fuel i0 pp0 cp0 pieces0 with
      | .panic => .panic
      | .diverge => .diverge
      | .ok none => .ok none
      | .ok (some (is_ip_v4, i1, pp1, cp1, pieces1)) =>
        let afterV4 : RunResult (Option (Nat × List Nat)) :=
          if is_ip_v4 then
            if pp1 > 6 then .ok none
            else ipv6_v4_loop input len fuel i1 0 pp1 pieces1
          else .ok (some (pp1, pieces1))
        match afterV4 with
        | .panic => .panic
        | .diverge => .diverge
        | .ok none => .ok none
        | .ok (some (pp2, pieces2)) =>
          match cp1 with
          | some compress_pointer =>
            .ok (some ⟨ipv6_finalize_swaps (pp2 - compress_pointer) 7 compress_pointer pieces2⟩)
          | none =>
            if pp2 ≠ 8 then .ok none else .ok (some ⟨pieces2⟩)

/-- Lowercase hex digit of a value below 16. -/
def hex_digit_lower (value : Nat) : Nat :=
  if value < 10 then value + 0x30 else value - 10 + 0x61

/-- Modelled from the spec: the Rust standard `to_str_radix(value, 16)` used
by `IPv6Address::serialize`, i.e. lowercase hex without leading zeros (the
standard library itself is outside src/). Fuel 8 covers every `u16`. -/
def to_str_radix16_go : Nat → Nat → List Nat
  | 0, _ => []
  | fuel + 1, n => if n = 0 then [] else to_str_radix16_go fuel (n / 16) ++ [hex_digit_lower (n % 16)]

/-- Modelled from the spec: lowercase-hex rendering of one group, `0` for a
zero group. -/
def to_str_radix16 (n : Nat) : List Nat :=
  if n = 0 then [0x30] else to_str_radix16_go 8 n

/-- The `for i in range(0, 8)` loop of `longest_zero_sequence` (src/url.rs),
including the trailing `finish_sequence!(8)` when the counter runs out.
State: remaining iterations, `i`, `longest`, `longest_length`, `start`
(the last three are `int` in the source, `-1` meaning unset). -/
def longest_zero_sequence_go (pieces : List Nat) :
    Nat → Nat → Int → Int → Int → Int × Int
  | 0, i, longest, longest_length, start =>
    let p : Int × Int :=
      if start ≥ 0 ∧ (i : Int) - start > longest_length
      then (start, (i : Int) - start) else (longest, longest_length)
    (p.1, p.1 + p.2)
  | rem + 1, i, longest, longest_length, start =>
    if (nthByte pieces i).getD 0 = 0 then
      longest_zero_sequence_go pieces rem (i + 1) longest longest_length
        (if start < 0 then (i : Int) else start)
    else
      let p : Int × Int :=
        if start ≥ 0 ∧ (i : Int) - start > longest_length
        then (start, (i : Int) - start) else (longest, longest_length)
      longest_zero_sequence_go pieces rem (i + 1) p.1 p.2 (-1)

/-- `longest_zero_sequence` from src/url.rs: start and end (exclusive) of
the leftmost longest run of zero groups, `(-1, -2)` when there are none. -/
def longest_zero_sequence (pieces : List Nat) : Int × Int :=
  longest_zero_sequence_go pieces 8 0 (-1) (-1) (-1)

/-- The `while i < 8` loop of `IPv6Address::serialize` (src/url.rs): emit
`::` at the compression start (falling through to the group at the jump
target in the same iteration), otherwise each group in lowercase hex with a
`:` after every group except the last. -/
def ipv6_serialize_loop (pieces : List Nat) (compress_start compress_end : Int) :
    Nat → Nat → List Nat → List Nat
  | 0, _, output => output
  | fuel + 1, i, output =>
    if i < 8 then
      if (i : Int) = compress_start then
        let output2 := (output ++ [0x3A]) ++ (if i = 0 then [0x3A] else [])
        if compress_end < 8 then
          let i2 := compress_end.toNat
          let output3 := output2 ++ to_str_radix16 ((nthByte pieces i2).getD 0) ++
            (if i2 < 7 then [0x3A] else [])
          ipv6_serialize_loop pieces compress_start compress_end fuel (i2 + 1) output3
        else output2
      else
        let output2 := output ++ to_str_radix16 ((nthByte pieces i).getD 0) ++
          (if i < 7 then [0x3A] else [])
        ipv6_serialize_loop pieces compress_start compress_end fuel (i + 1) output2
    else output

/-- `IPv6Address::serialize` from src/url.rs. -/
def IPv6Address.serialize (a : IPv6Address) : List Nat :=
  let p := longest_zero_sequence a.pieces
  ipv6_serialize_loop a.pieces p.1 p.2 16 0 []

/-- Modelled from the spec: the external character-encoding provider's UTF-8
decoder with the WHATWG replacement policy (the `encoding` crate is outside
src/): bytes to Unicode code points, invalid sequences producing U+FFFD.
Structurally recursive on a fuel the wrapper sets to the byte count. -/
def utf8_decode_go : Nat → List Nat → List Nat
  | 0, _ => []
  | _, [] => []
  | fuel + 1, b :: rest =>
    if b < 0x80 then b :: utf8_decode_go fuel rest
    else if 0xC2 ≤ b ∧ b ≤ 0xDF then
      match rest with
      | b2 :: rest2 =>
        if 0x80 ≤ b2 ∧ b2 ≤ 0xBF then
          ((b - 0xC0) * 0x40 + (b2 - 0x80)) :: utf8_decode_go fuel rest2
        else 0xFFFD :: utf8_decode_go fuel rest
      | [] => [0xFFFD]
    else if 0xE0 ≤ b ∧ b ≤ 0xEF then
      match rest with
      | b2 :: b3 :: rest3 =>
        if ((if b = 0xE0 then 0xA0 else 0x80) ≤ b2 ∧
              b2 ≤ (if b = 0xED then 0x9F else 0xBF)) ∧
            (0x80 ≤ b3 ∧ b3 ≤ 0xBF) then
          ((b - 0xE0) * 0x1000 + (b2 - 0x80) * 0x40 + (b3 - 0x80)) :: utf8_decode_go fuel rest3
        else 0xFFFD :: utf8_decode_go fuel rest
      | _ => 0xFFFD :: utf8_decode_go fuel rest
    else if 0xF0 ≤ b ∧ b ≤ 0xF4 then
      match rest with
      | b2 :: b3 :: b4 :: rest4 =>
        if ((if b = 0xF0 then 0x90 else 0x80) ≤ b2 ∧
              b2 ≤ (if b = 0xF4 then 0x8F else 0xBF)) ∧
            (0x80 ≤ b3 ∧ b3 ≤ 0xBF) ∧ (0x80 ≤ b4 ∧ b4 ≤ 0xBF) then
          ((b - 0xF0) * 0x40000 + (b2 - 0x80) * 0x1000 + (b3 - 0x80) * 0x40 + (b4 - 0x80)) ::
            utf8_decode_go fuel rest4
        else 0xFFFD :: utf8_decode_go fuel rest
      | _ => 0xFFFD :: utf8_decode_go fuel rest
    else 0xFFFD :: utf8_decode_go fuel rest

/-- Modelled from the spec: UTF-8 decoding with replacement, never failing. -/
def utf8_decode_replace (bytes : List Nat) : List Nat :=
  utf8_decode_go bytes.length bytes

/-- Modelled from the spec: the UTF-8 encoder of the external
character-encoding provider, code points to bytes. -/
def utf8_encode : List Nat → List Nat
  | [] => []
  | c :: rest =>
    (if c < 0x80 then [c]
     else if c < 0x800 then [0xC0 + c / 0x40, 0x80 + c % 0x40]
     else if c < 0x10000 then
       [0xE0 + c / 0x1000, 0x80 + (c / 0x40) % 0x40, 0x80 + c % 0x40]
     else
       [0xF0 + c / 0x40000, 0x80 + (c / 0x1000) % 0x40,
        0x80 + (c / 0x40) % 0x40, 0x80 + c % 0x40]) ++ utf8_encode rest

/-- Splitting a sequence at every separator, keeping empty parts, as Rust
`str::split` does: `n` separators yield `n + 1` parts. -/
def split_on (isSep : Nat → Bool) : List Nat → List (List Nat)
  | [] => [[]]
  | c :: rest =>
    if isSep c then [] :: split_on isSep rest
    else
      match split_on isSep rest with
      | [] => [[c]]
      | l :: ls => (c :: l) :: ls

/-- Joining parts with a single separator byte, as Rust `connect`. -/
def join_with (sep : Nat) : List (List Nat) → List Nat
  | [] => []
  | [l] => l
  | l :: ls => l ++ [sep] ++ join_with sep ls

/-- The `Host` enum from src/url.rs: a domain (sequence of labels, stored
here as lists of code points, pure ASCII by construction) or an IPv6
address. -/
inductive Host where
  | Domain : List (List Nat) → Host
  | IPv6 : IPv6Address → Host
deriving DecidableEq

/-- The four Unicode domain-dot separators `Host::parse` splits on. -/
def domain_dot (c : Nat) : Bool :=
  c = 0x2E || c = 0x3002 || c = 0xFF0E || c = 0xFF61

/-- The labels a non-bracketed host input is split into by `Host::parse`
(src/url.rs): percent-encode under the simple set, percent-decode, decode as
UTF-8 with replacement, split on the four domain dots. -/
def host_labels (input : List Nat) : List (List Nat) :=
  split_on domain_dot (utf8_decode_replace (percent_decode (utf8_percent_encode input .SimpleEncodeSet)))

/-- The label loop of `Host::parse` (src/url.rs): collect labels in order,
stopping with the IDNA error at the first label that is not pure ASCII. -/
def collect_labels : List (List Nat) → Except String (List (List Nat))
  | [] => .ok []
  | label :: rest =>
    if label.all (fun c => c < 0x80) then
      match collect_labels rest with
      | .ok labels => .ok (label :: labels)
      | .error e => .error e
    else .error r"Non-ASCII domains (IDNA) are not supported yet."

/-- `Host::parse` from src/url.rs. The bracketed branch reads `input[0]` and
`input[input.len() - 1]` only after the emptiness check, so those two reads
are safe; the interior is handed to `IPv6Address::parse`, whose result
(including a panic or divergence) propagates. -/
def Host.parse (fuel : Nat) (input : List Nat) : RunResult (Except String Host) :=
  if input.length = 0 then .ok (.error r"Empty host")
  else if nthByte input 0 = some 0x5B then
    if nthByte input (input.length - 1) = some 0x5D then
      match IPv6Address.parse fuel ((input.drop 1).take (input.length - 2)) with
      | .panic => .panic
      | .diverge => .diverge
      | .ok (some address) => .ok (.ok (.IPv6 address))
      | .ok none => .ok (.error r"Invalid IPv6 address")
    else .ok (.error r"Invalid IPv6 address")
  else
    match collect_labels (host_labels input) with
    | .ok labels => .ok (.ok (.Domain labels))
    | .error e => .ok (.error e)

/-- `Host::serialize` from src/url.rs: labels joined with `.`, or the IPv6
serialization in brackets. -/
def Host.serialize : Host → List Nat
  | .Domain labels => join_with 0x2E labels
  | .IPv6 address => [0x5B] ++ address.serialize ++ [0x5D]

/-- The `UserInfo` struct from src/url.rs. -/
structure UserInfo where
  username : List Nat
  password : Option (List Nat)
deriving DecidableEq

/-- The `SchemeRelativeURL` struct from src/url.rs. -/
structure SchemeRelativeURL where
  userinfo : Option UserInfo
  host : Host
  port : List Nat
  path : List (List Nat)
deriving DecidableEq

/-- The `SchemeData` enum from src/url.rs. -/
inductive SchemeData where
  | RelativeSchemeData : SchemeRelativeURL → SchemeData
  | OtherSchemeData : List Nat → SchemeData
deriving DecidableEq

/-- The `URL` struct from src/url.rs. -/
structure URL where
  scheme : List Nat
  scheme_data : SchemeData
  query : Option (List Nat)
  fragment : Option (List Nat)
deriving DecidableEq

/-- `URL::serialize_no_fragment` from src/url.rs. -/
def URL.serialize_no_fragment (url : URL) : List Nat :=
  let result := url.scheme ++ [0x3A]
  let result :=
    match url.scheme_data with
    | .RelativeSchemeData ⟨userinfo, host, port, path⟩ =>
      let r := result ++ [0x2F, 0x2F]
      let r :=
        match userinfo with
        | none => r
        | some ⟨username, password⟩ =>
          if username.length > 0 ∨ password.isSome then
            (r ++ username ++
              (match password with
               | none => []
               | some p => [0x3A] ++ p)) ++ [0x40]
          else r
      let r := r ++ host.serialize
      let r := if port.length > 0 then r ++ [0x3A] ++ port else r
      if path.length > 0 then
        r ++ (path.map (fun part => [0x2F] ++ part)).flatten
      else r ++ [0x2F]
    | .OtherSchemeData data => result ++ data
  match url.query with
  | none => result
  | some q => result ++ [0x3F] ++ q

/-- `URL::serialize` from src/url.rs. -/
def URL.serialize (url : URL) : List Nat :=
  url.serialize_no_fragment ++
    (match url.fragment with
     | none => []
     | some fragment => [0x23] ++ fragment)

/-- Modelled from the spec: a reference to the external character-encoding
provider (the `encoding` crate is outside src/). The claims only exercise
the default UTF-8 encoding, so this carries the UTF-8 case; other labels are
simply not recognised by `encoding_from_whatwg_label` below. -/
inductive EncodingRef where
  | utf8 : EncodingRef
deriving DecidableEq

/-- Modelled from the spec: the provider's WHATWG label lookup, resolving
the UTF-8 labels to the UTF-8 encoding and nothing else. -/
def encoding_from_whatwg_label (label : List Nat) : Option EncodingRef :=
  if label = bytesOf r"utf-8" ∨ label = bytesOf r"utf8" ∨ label = bytesOf r"unicode-1-1-utf-8"
  then some .utf8 else none

/-- Modelled from the spec: the provider's `decode` with the replacement
policy, returning the decoded text (itself stored as UTF-8 bytes, as every
Rust string is). -/
def EncodingRef.decode_replace : EncodingRef → List Nat → List Nat
  | .utf8, bytes => utf8_encode (utf8_decode_replace bytes)

/-- Modelled from the spec: the provider's `encode` of a (UTF-8) string into
the target encoding; for the UTF-8 target this is the identity on bytes. -/
def EncodingRef.encode_ncr_escape : EncodingRef → List Nat → List Nat
  | .utf8, bytes => bytes

/-- Index of the first `=` in a segment, as Rust `str::find`. -/
def find_byte : List Nat → Nat → Option Nat
  | [], _ => none
  | c :: rest, b =>
    if c = b then some 0
    else (find_byte rest b).map (· + 1)

/-- Rust `str::replace` of the one-byte pattern `+` by a space. -/
def replace_plus (s : List Nat) : List Nat :=
  s.map (fun c => if c = 0x2B then 0x20 else c)

/-- The collection loop of `parse_form_urlencoded` (src/url.rs): walk the
`&`-separated segments, skip empty ones, split each at its first `=` (with
the one-shot `isindex` rule), replace `+` by space, and let a `_charset_`
pair mutate the encoding override used by the later decode pass. Returns
the raw pairs and the final encoding override. -/
def parse_form_urlencoded_go (use_charset : Bool) :
    List (List Nat) → Bool → EncodingRef →
    List (List Nat × List Nat) × EncodingRef
  | [], _, encoding_override => ([], encoding_override)
  | string :: rest, isindex, encoding_override =>
    if string.length > 0 then
      let p : List Nat × List Nat :=
        match find_byte string 0x3D with
        | some position => (string.take position, string.drop (position + 1))
        | none => if isindex then ([], string) else (string, [])
      let name := replace_plus p.1
      let value := replace_plus p.2
      let encoding_override2 :=
        if use_charset ∧ name = bytesOf r"_charset_" then
          match encoding_from_whatwg_label value with
          | some encoding => encoding
          | none => encoding_override
        else encoding_override
      let rec2 := parse_form_urlencoded_go use_charset rest false encoding_override2
      ((name, value) :: rec2.1, rec2.2)
    else parse_form_urlencoded_go use_charset rest false encoding_override

/-- The `decode` helper inside `parse_form_urlencoded` (src/url.rs):
percent-decode, then decode with the (final) encoding override. -/
def form_decode (input : List Nat) (encoding_override : EncodingRef) : List Nat :=
  encoding_override.decode_replace (percent_decode input)

/-- `parse_form_urlencoded` from src/url.rs. The decode pass runs after the
collection loop, so the encoding override it uses is the final one — a late
`_charset_` pair retroactively changes the decoding of earlier pairs. -/
def parse_form_urlencoded (input : List Nat) (encoding_override : Option EncodingRef)
    (use_charset : Bool) (isindex : Bool) : List (List Nat × List Nat) :=
  let enc0 := encoding_override.getD .utf8
  let collected := parse_form_urlencoded_go use_charset (split_on (· = 0x26) input) isindex enc0
  collected.1.map (fun p => (form_decode p.1 collected.2, form_decode p.2 collected.2))

/-- The `byte_serialize` helper inside `serialize_form_urlencoded`
(src/url.rs): encode to the target encoding (UTF-8 input passes through when
there is no override), then space to `+`, the bytes
`[A-Za-z0-9*\-._]` verbatim, and everything else percent-encoded. -/
def form_byte_serialize (input : List Nat) (encoding_override : Option EncodingRef) : List Nat :=
  let bytes :=
    match encoding_override with
    | none => input
    | some encoding => encoding.encode_ncr_escape input
  (bytes.map (fun byte =>
    if byte = 0x20 then [0x2B]
    else if byte = 0x2A ∨ byte = 0x2D ∨ byte = 0x2E ∨
        (0x30 ≤ byte ∧ byte ≤ 0x39) ∨ (0x41 ≤ byte ∧ byte ≤ 0x5A) ∨
        byte = 0x5F ∨ (0x61 ≤ byte ∧ byte ≤ 0x7A) then [byte]
    else percent_encode_byte byte)).flatten

/-- The pair loop of `serialize_form_urlencoded` (src/url.rs): the whole
`&name=value` emission sits inside `if output.len() > 0`, exactly as in the
source. -/
def serialize_form_urlencoded_go (encoding_override : Option EncodingRef) :
    List (List Nat × List Nat) → List Nat → List Nat
  | [], output => output
  | p :: rest, output =>
    let output2 :=
      if output.length > 0 then
        (output ++ [0x26] ++ form_byte_serialize p.1 encoding_override ++ [0x3D]) ++
          form_byte_serialize p.2 encoding_override
      else output
    serialize_form_urlencoded_go encoding_override rest output2

/-- `serialize_form_urlencoded` from src/url.rs. -/
def serialize_form_urlencoded (pairs : List (List Nat × List Nat))
    (encoding_override : Option EncodingRef) : List Nat :=
  serialize_form_urlencoded_go encoding_override pairs []

/-- Claim C1: the claim says `serialize_form_urlencoded` on
`[("a","1"),("b","2 c")]` with no override produces `"a=1&b=2+c"` and that
`parse_form_urlencoded` inverts it. In the code the whole `&name=value`
emission is guarded by `output.len() > 0`, so the output never becomes
non-empty and the serializer returns the empty string for every pair list;
the parse direction of the claim does hold on the literal string
`"a=1&b=2+c"`, but the round trip through the code's serializer yields `[]`. -/
theorem c1_form_serialize_emits_nothing :
    serialize_form_urlencoded
        [(bytesOf r"a", bytesOf r"1"), (bytesOf r"b", bytesOf r"2 c")] none = [] ∧
    serialize_form_urlencoded
        [(bytesOf r"a", bytesOf r"1"), (bytesOf r"b", bytesOf r"2 c")] none ≠
      bytesOf r"a=1&b=2+c" ∧
    parse_form_urlencoded (bytesOf r"a=1&b=2+c") none false false =
      [(bytesOf r"a", bytesOf r"1"), (bytesOf r"b", bytesOf r"2 c")] ∧
    parse_form_urlencoded
        (serialize_form_urlencoded
          [(bytesOf r"a", bytesOf r"1"), (bytesOf r"b", bytesOf r"2 c")] none)
        none false false = [] := by
  refine ⟨by decide, by decide, by decide, by decide⟩

/-- Claim C2: the claim says `IPv6Address::parse("::ffff:192.0.2.1")`
yields the groups `[0,0,0,0,0,0xffff,0xc000,0x0201]`. In the code the
embedded-IPv4 digit loop never advances `i`, so it reads the same digit
forever: the accumulated value exceeds 255 after four readings of the digit
`1` and the parse returns `None` instead. -/
theorem c2_ipv6_embedded_ipv4_returns_none :
    IPv6Address.parse 100 (bytesOf r"::ffff:192.0.2.1") = .ok none ∧
    IPv6Address.parse 100 (bytesOf r"::ffff:192.0.2.1") ≠
      .ok (some ⟨[0, 0, 0, 0, 0, 0xffff, 0xc000, 0x0201]⟩) := by
  refine ⟨by decide, by decide⟩

/-- Claim C5: the claim says `parse(serialize(a)) = a` for every address.
For `a = [0,1,1,1,1,1,1,1]` the serializer compresses the single zero group
and emits `"::1:1:1:1:1:1:1"`; re-parsing fills all 8 slots (the `::`
itself advances `piece_pointer`), and the finalize loop then copies each
piece onto itself and zeroes it afterwards, wiping the address to all
zeros. -/
theorem c5_ipv6_roundtrip_fails :
    IPv6Address.serialize ⟨[0, 1, 1, 1, 1, 1, 1, 1]⟩ = bytesOf r"::1:1:1:1:1:1:1" ∧
    IPv6Address.parse 100 (IPv6Address.serialize ⟨[0, 1, 1, 1, 1, 1, 1, 1]⟩) =
      .ok (some ⟨[0, 0, 0, 0, 0, 0, 0, 0]⟩) ∧
    (⟨[0, 0, 0, 0, 0, 0, 0, 0]⟩ : IPv6Address) ≠ ⟨[0, 1, 1, 1, 1, 1, 1, 1]⟩ := by
  refine ⟨by decide, by decide, by decide⟩

/-- Claim C7 counterexample: the claim says
`parse_form_urlencoded("a&value", None, false, true)` returns
`[("a",""),("value","")]`; the code applies the isindex rule to the first
segment `"a"`, producing `("", "a")` as the first pair instead. -/
theorem c7_isindex_counterexample :
    ¬(parse_form_urlencoded (bytesOf r"a&value") none false true =
        [(bytesOf r"a", []), (bytesOf r"value", [])]) := by
  decide

/-- Claim C7 as amended: the isindex rule applies to the very first
`&`-separated segment and is then cleared; `parse("value", None, false,
true)` returns `[("","value")]` and `parse("a&value", None, false, true)`
returns `[("","a"),("value","")]`. -/
theorem c7_isindex_amended :
    parse_form_urlencoded (bytesOf r"value") none false true =
      [([], bytesOf r"value")] ∧
    parse_form_urlencoded (bytesOf r"a&value") none false true =
      [([], bytesOf r"a"), (bytesOf r"value", [])] := by
  refine ⟨by decide, by decide⟩

/-- Claim C8: `URL::serialize` follows the stated format. The named URL
(scheme http, no userinfo, host example.com, empty port, path [a, b], query
q=1, no fragment) serializes to `"http://example.com/a/b?q=1"`; a URL with
a userinfo whose username is empty and password absent omits the userinfo
entirely, a non-empty port gets `:port`, an empty path becomes a single
`/`, and a fragment is appended after `#`; opaque scheme data is emitted
verbatim. Serialization is a total function of the URL value, hence
deterministic; the last conjunct is the fragment rule for every URL. -/
theorem c8_url_serialize_shape :
    URL.serialize
      { scheme := bytesOf r"http",
        scheme_data := .RelativeSchemeData
          { userinfo := none,
            host := .Domain [bytesOf r"example", bytesOf r"com"],
            port := [],
            path := [bytesOf r"a", bytesOf r"b"] },
        query := some (bytesOf r"q=1"),
        fragment := none } = bytesOf r"http://example.com/a/b?q=1" ∧
    URL.serialize
      { scheme := bytesOf r"http",
        scheme_data := .RelativeSchemeData
          { userinfo := some ⟨[], none⟩,
            host := .Domain [bytesOf r"h"],
            port := bytesOf r"80",
            path := [] },
        query := none,
        fragment := some (bytesOf r"f") } = bytesOf r"http://h:80/#f" ∧
    URL.serialize
      { scheme := bytesOf r"mailto",
        scheme_data := .OtherSchemeData (bytesOf r"x@y"),
        query := none,
        fragment := none } = bytesOf r"mailto:x@y" ∧
    ∀ url : URL,
      url.serialize = url.serialize_no_fragment ++
        (match url.fragment with
         | none => []
         | some fragment => [0x23] ++ fragment) := by
  refine ⟨by decide, by decide, by decide, fun url => rfl⟩

/-- Claim C3: the claim says `Host::parse` never reaches an out-of-bounds
access, in particular on `"[]"` and `"[:]"`. In the code the bracketed
branch hands the interior to `IPv6Address::parse`, which reads `input[0]`
unguarded (out of bounds for the empty interior of `"[]"`) and, when the
first byte is `:`, reads `input[1]` unguarded (out of bounds for the
one-byte interior of `"[:]"`); both inputs therefore panic instead of
returning an error, for every fuel. -/
theorem c3_host_parse_panics_on_short_bracket (fuel : Nat) :
    Host.parse fuel (bytesOf r"[]") = .panic ∧
    Host.parse fuel (bytesOf r"[:]") = .panic :=
  ⟨rfl, rfl⟩

/-- Witness for C3 at fuel 5. -/
theorem c3_host_parse_panics_on_short_bracket_witness :
    Host.parse 5 (bytesOf r"[]") = .panic :=
  (c3_host_parse_panics_on_short_bracket 5).1

/-- On `"::0.0.0.0"` the decimal-digit loop of the embedded-IPv4 mode
rereads `input[2]` (the byte `0`) forever: the source never advances `i`
inside this loop, the accumulated value stays 0, so the loop state repeats
and every fuel is exhausted. -/
theorem ipv6_v4_value_loop_stuck_at_zero (fuel : Nat) :
    ipv6_v4_value_loop (bytesOf r"::0.0.0.0") 9 2 fuel 0 = .diverge := by
  induction fuel with
  | zero => rfl
  | succ m ih =>
    have h : ipv6_v4_value_loop (bytesOf r"::0.0.0.0") 9 2 (m + 1) 0 =
        ipv6_v4_value_loop (bytesOf r"::0.0.0.0") 9 2 m 0 := rfl
    exact h.trans ih

/-- On `"::0.0.0.0"` the outer embedded-IPv4 loop immediately enters the
stuck decimal loop, so it diverges for every fuel. -/
theorem ipv6_v4_loop_stuck_at_zero (fuel : Nat) :
    ipv6_v4_loop (bytesOf r"::0.0.0.0") 9 fuel 2 0 1 [0, 0, 0, 0, 0, 0, 0, 0] = .diverge := by
  match fuel with
  | 0 => rfl
  | m + 1 =>
    have h : ipv6_v4_loop (bytesOf r"::0.0.0.0") 9 (m + 1) 2 0 1 [0, 0, 0, 0, 0, 0, 0, 0] =
        (match ipv6_v4_value_loop (bytesOf r"::0.0.0.0") 9 2 m 0 with
         | .panic => (.panic : RunResult (Option (Nat × List Nat)))
         | .diverge => .diverge
         | .ok none => .ok none
         | .ok (some _) => .ok none) := rfl
    rw [h, ipv6_v4_value_loop_stuck_at_zero m]

/-- Claim C4: the claim says `IPv6Address::parse` terminates on every
input, including `"::0.0.0.0"`. On that input the code reaches the
embedded-IPv4 digit loop at the byte `0` and, since the loop never advances
`i` and the accumulated value stays 0, loops forever: the model diverges
for every fuel supplied. -/
theorem c4_ipv6_parse_diverges_on_embedded_ipv4 (fuel : Nat) :
    IPv6Address.parse fuel (bytesOf r"::0.0.0.0") = .diverge := by
  match fuel with
  | 0 => rfl
  | 1 => rfl
  | 2 => rfl
  | n + 3 =>
    have h : IPv6Address.parse (n + 3) (bytesOf r"::0.0.0.0") =
        (match ipv6_v4_loop (bytesOf r"::0.0.0.0") 9 (n + 3) 2 0 1 [0, 0, 0, 0, 0, 0, 0, 0] with
         | .panic => (.panic : RunResult (Option IPv6Address))
         | .diverge => .diverge
         | .ok none => .ok none
         | .ok (some (pp2, pieces2)) =>
             .ok (some ⟨ipv6_finalize_swaps (pp2 - 1) 7 1 pieces2⟩)) := rfl
    rw [h, ipv6_v4_loop_stuck_at_zero (n + 3)]

/-- Witness for C4 at fuel 5. -/
theorem c4_ipv6_parse_diverges_on_embedded_ipv4_witness :
    IPv6Address.parse 5 (bytesOf r"::0.0.0.0") = .diverge :=
  c4_ipv6_parse_diverges_on_embedded_ipv4 5

deriving instance DecidableEq for Except

/-- A successful byte lookup implies the index is in range. -/
theorem nthByte_some_imp_lt {l : List Nat} {n b : Nat} (h : nthByte l n = some b) :
    n < l.length := by
  induction l generalizing n with
  | nil => simp [nthByte] at h
  | cons a t ih =>
    cases n with
    | zero => simp
    | succ m =>
      have hm : m < t.length := ih (h := h)
      simpa using Nat.succ_lt_succ hm

/-- If some label in the list is not pure ASCII, the label loop of
`Host::parse` returns the IDNA error. -/
theorem collect_labels_error {ls : List (List Nat)} {label : List Nat}
    (hmem : label ∈ ls) (hna : ¬label.all (fun c => c < 0x80) = true) :
    collect_labels ls = .error r"Non-ASCII domains (IDNA) are not supported yet." := by
  induction ls with
  | nil => cases hmem
  | cons l t ih =>
    simp only [collect_labels]
    by_cases hl : l.all (fun c => c < 0x80) = true
    · rw [if_pos hl]
      rcases List.mem_cons.mp hmem with heq | hmem2
      · exact absurd (heq ▸ hl) hna
      · rw [ih hmem2]
    · rw [if_neg hl]

/-- Claim C6: `Host::parse` produces the distinct error cases. Empty input
gives the empty-host error; a bracketed input whose last byte is not `]`,
or whose bracket interior is rejected by `IPv6Address::parse`, gives the
invalid-IPv6 error (in particular on `"[::1"` and `"[::g]"`); and an
unbracketed input one of whose labels (after percent-encode, percent-decode
and dot-splitting) is not pure ASCII gives the distinct IDNA error. -/
theorem c6_host_parse_error_cases :
    (∀ fuel, Host.parse fuel [] = .ok (.error r"Empty host")) ∧
    (∀ fuel input, nthByte input 0 = some 0x5B →
      nthByte input (input.length - 1) ≠ some 0x5D →
      Host.parse fuel input = .ok (.error r"Invalid IPv6 address")) ∧
    (∀ fuel input, nthByte input 0 = some 0x5B →
      nthByte input (input.length - 1) = some 0x5D →
      IPv6Address.parse fuel ((input.drop 1).take (input.length - 2)) = .ok none →
      Host.parse fuel input = .ok (.error r"Invalid IPv6 address")) ∧
    Host.parse 100 (bytesOf r"[::1") = .ok (.error r"Invalid IPv6 address") ∧
    Host.parse 100 (bytesOf r"[::g]") = .ok (.error r"Invalid IPv6 address") ∧
    (∀ fuel input label, nthByte input 0 ≠ some 0x5B → input.length ≠ 0 →
      label ∈ host_labels input → ¬label.all (fun c => c < 0x80) = true →
      Host.parse fuel input =
        .ok (.error r"Non-ASCII domains (IDNA) are not supported yet.")) := by
  refine ⟨fun fuel => rfl, ?_, ?_, by decide, by decide, ?_⟩
  · intro fuel input h0 h1
    have hlen : input.length ≠ 0 := by
      have := nthByte_some_imp_lt h0
      omega
    unfold Host.parse
    rw [if_neg hlen, if_pos h0, if_neg h1]
  · intro fuel input h0 h1 hip
    have hlen : input.length ≠ 0 := by
      have := nthByte_some_imp_lt h0
      omega
    unfold Host.parse
    rw [if_neg hlen, if_pos h0, if_pos h1, hip]
  · intro fuel input label h0 hlen hmem hna
    unfold Host.parse
    rw [if_neg hlen, if_neg h0, collect_labels_error hmem hna]

/-- Witness for C6: the three general components applied at concrete
inputs — a bracketed input without a closing bracket, a bracketed input
whose interior the IPv6 parser rejects, and the two-byte UTF-8 input for
`é`, whose single label is not ASCII. -/
theorem c6_host_parse_error_cases_witness :
    Host.parse 3 (bytesOf r"[a") = .ok (.error r"Invalid IPv6 address") ∧
    Host.parse 100 (bytesOf r"[ ]") = .ok (.error r"Invalid IPv6 address") ∧
    Host.parse 100 [0xC3, 0xA9] =
      .ok (.error r"Non-ASCII domains (IDNA) are not supported yet.") :=
  ⟨c6_host_parse_error_cases.2.1 3 (bytesOf r"[a") (by decide) (by decide),
   c6_host_parse_error_cases.2.2.1 100 (bytesOf r"[ ]") (by decide) (by decide) (by decide),
   c6_host_parse_error_cases.2.2.2.2.2 100 [0xC3, 0xA9] [0xE9] (by decide) (by decide)
     (by decide) (by decide)⟩

/-- Position of an encode set in the hierarchy
Simple, Default, UserInfo, Password, Username of src/url.rs. -/
def encode_set_rank : EncodeSet → Nat
  | .SimpleEncodeSet => 0
  | .DefaultEncodeSet => 1
  | .UserInfoEncodeSet => 2
  | .PasswordEncodeSet => 3
  | .UsernameEncodeSet => 4

/-- Claim C9: percent-encoding is monotone in the encode-set hierarchy —
whenever a byte is escaped under a set, it is escaped under every set
further along the chain Simple, Default, UserInfo, Password, Username —
and every byte below 0x20 or above 0x7E is escaped under every set. -/
theorem c9_encode_set_monotone :
    (∀ byte s1 s2, encode_set_rank s1 ≤ encode_set_rank s2 →
      escape_byte s1 byte = true → escape_byte s2 byte = true) ∧
    (∀ byte s, byte < 0x20 ∨ 0x7E < byte → escape_byte s byte = true) := by
  constructor
  · intro byte s1 s2 hle h
    unfold escape_byte at h ⊢
    split_ifs at h ⊢ <;>
      first
        | rfl
        | exact h
        | (cases s1 <;> cases s2 <;> simp_all [encode_set_rank])
  · intro byte s hb
    unfold escape_byte
    rw [if_pos hb]

/-- Witness for C9: `?` is escaped under the default set, hence (by the
theorem) under the username set; a control byte is escaped everywhere. -/
theorem c9_encode_set_monotone_witness :
    escape_byte .DefaultEncodeSet 0x3F = true ∧
    escape_byte .UsernameEncodeSet 0x3F = true ∧
    escape_byte .PasswordEncodeSet 0x1F = true :=
  ⟨by decide,
   c9_encode_set_monotone.1 0x3F .DefaultEncodeSet .UsernameEncodeSet (by decide) (by decide),
   c9_encode_set_monotone.2 0x1F .PasswordEncodeSet (Or.inl (by decide))⟩

/-- The always-safe byte set `[A-Za-z0-9*\-._]` of the claim. -/
def always_safe_byte (b : Nat) : Bool :=
  b = 0x2A || b = 0x2D || b = 0x2E || (0x30 ≤ b && b ≤ 0x39) ||
    (0x41 ≤ b && b ≤ 0x5A) || b = 0x5F || (0x61 ≤ b && b ≤ 0x7A)

/-- Claim C10: every byte in the always-safe set `[A-Za-z0-9*\-._]` is left
unescaped by `utf8_percent_encode` under every encode set, and
`percent_decode` maps the encoded output back to the byte. -/
theorem c10_safe_bytes_unescaped_roundtrip :
    ∀ b s, always_safe_byte b = true →
      utf8_percent_encode [b] s = [b] ∧
      percent_decode (utf8_percent_encode [b] s) = [b] := by
  intro b s hb
  simp only [always_safe_byte, Bool.or_eq_true, Bool.and_eq_true,
    decide_eq_true_eq] at hb
  have hesc : escape_byte s b = false := by
    unfold escape_byte
    split_ifs <;> first | rfl | (exfalso; omega)
  have henc : utf8_percent_encode [b] s = [b] := by
    simp [utf8_percent_encode, hesc]
  refine ⟨henc, ?_⟩
  rw [henc]
  have h1 : percent_decode [b] = if b = 0x25 then [b] else [b] := rfl
  rw [h1, ite_self]

/-- Witness for C10 at the byte `*` under the username set. -/
theorem c10_safe_bytes_unescaped_roundtrip_witness :
    utf8_percent_encode [0x2A] .UsernameEncodeSet = [0x2A] ∧
    percent_decode (utf8_percent_encode [0x2A] .UsernameEncodeSet) = [0x2A] :=
  c10_safe_bytes_unescaped_roundtrip 0x2A .UsernameEncodeSet (by decide)

end RustUrl
